import Mathlib

/-!
Verification development for the reflection and dynamic-message engine of a
protobuf-style serialization system (rust-protobuf).

The definitions below are a shallow embedding of the repository's code:

* `DescriptorProto` / `FieldDescriptorProto` — the schema description types
  consumed by `protobuf-codegen/src/map.rs` and
  `protobuf/src/reflect/message/mod.rs` (only the components those files
  consult are modelled; list-valued components that are only tested for
  emptiness are carried as lengths).
* `map_entry` — `protobuf-codegen/src/map.rs`, with assertion failures
  (panics) embedded as `none`.
* The value model (`ReflectValue`, `FieldValue`, `MapKey`) and the
  mode-directed structural equality — the repository's `ReflectValueRef` /
  `ReflectFieldRef` / `ReflectEq` machinery; the files defining them are not
  part of this snapshot, so they are modelled from the spec (Value Model §3,
  Equality engine §4.6).
* `MessageDescriptor` and its lookups — `protobuf/src/reflect/message/mod.rs`;
  the `MessageIndex` maps are modelled from the spec (Index, §3/§4.1).
* Map reflection — `protobuf/src/reflect/map/mod.rs` and
  `protobuf/src/reflect/map/generated.rs` (`HashMap` backing), with the
  unordered `HashMap` modelled as an association list with unique keys.
* Codegen default-instance emission — `protobuf-codegen/src/message.rs`.
-/

/-- Field label, from `field_descriptor_proto::Label` as used in
`protobuf-codegen/src/map.rs`. -/
inductive Label where
  | LABEL_OPTIONAL : Label
  | LABEL_REQUIRED : Label
  | LABEL_REPEATED : Label
deriving DecidableEq, Repr

/-- Field declaration of a schema: the components of `FieldDescriptorProto`
consulted by the code under verification (`name`, `number`, `label`,
`json_name`). -/
structure FieldDescriptorProto where
  name : String
  number : Nat
  label : Label
  json_name : String
deriving DecidableEq, Repr

/-- Message declaration of a schema: the components of `DescriptorProto`
consulted by `map_entry` and `MessageDescriptor`.  The `nested_type`,
`enum_type`, `extension` and `extension_range` lists are only ever tested
for emptiness by the embedded code, so only their lengths are carried.
`options_map_entry` is `options.get_or_default().get_map_entry()`. -/
structure DescriptorProto where
  name : String
  field : List FieldDescriptorProto
  nested_type_len : Nat
  enum_type_len : Nat
  extension_len : Nat
  extension_range_len : Nat
  options_map_entry : Bool
deriving DecidableEq, Repr

/-- The key/value pair fields of a message, `d.fields()[0]` and
`d.fields()[1]` as read by `map_entry` in `protobuf-codegen/src/map.rs`. -/
def firstTwoFields (d : DescriptorProto) :
    Option (FieldDescriptorProto × FieldDescriptorProto) :=
  match d.field with
  | k :: v :: _ => some (k, v)
  | _ => none

/-- `str::ends_with` on the character-list view of strings (kernel-friendly
form of `String.endsWith`), used by the `ends_with("Entry")` assertion. -/
def strEndsWith (s suffix : String) : Bool :=
  List.isSuffixOf suffix.data s.data

/-- The shape assertions of `map_entry` in `protobuf-codegen/src/map.rs`:
name ends with `Entry`, no extensions / extension ranges / nested types /
enums, exactly two fields named `key`/`value`, numbered 1/2, both with
label `LABEL_OPTIONAL`. -/
def mapEntryShapeOk (d : DescriptorProto) : Bool :=
  strEndsWith d.name "Entry"
    && d.extension_len == 0
    && d.extension_range_len == 0
    && d.nested_type_len == 0
    && d.enum_type_len == 0
    && d.field.length == 2
    && (match d.field with
        | [k, v] =>
          k.name == "key" && v.name == "value"
            && k.number == 1 && v.number == 2
            && k.label == Label.LABEL_OPTIONAL && v.label == Label.LABEL_OPTIONAL
        | _ => false)

/-- `map_entry` from `protobuf-codegen/src/map.rs`: returns the pair of
(key, value) fields if this message is a map entry.  The outer `Option`
embeds the hard `assert!` failures: `none` is a panic, `some none` is
"not a map entry" (the `map_entry` option is not set), `some (some (k, v))`
is a recognized map entry. -/
def map_entry (d : DescriptorProto) :
    Option (Option (FieldDescriptorProto × FieldDescriptorProto)) :=
  if d.options_map_entry then
    if mapEntryShapeOk d then
      (firstTwoFields d).map some
    else
      none
  else
    some none

/-- Abstract IEEE float: either a NaN or an (abstracted) finite value.  The
engine's only float-specific behavior is the NaN-equality mode, so finite
values are carried abstractly.  Modelled from the spec: Value Model §3,
Equality engine §4.6. -/
inductive PbFloat where
  | nan : PbFloat
  | fin : Int → PbFloat
deriving DecidableEq, Repr

/-- Map key values.  Modelled from the spec: "map key types are restricted
to a subset (no floating point, no message, no repeated)" (§3); matches the
`K: ProtobufValue + Eq + Hash, K::RuntimeType: RuntimeTypeHashable` bound of
the `HashMap` backing in `protobuf/src/reflect/map/generated.rs`. -/
inductive MapKey where
  | u32V : Nat → MapKey
  | u64V : Nat → MapKey
  | i32V : Int → MapKey
  | i64V : Int → MapKey
  | boolV : Bool → MapKey
  | stringV : String → MapKey
deriving DecidableEq, Repr

mutual
/-- Element values of the value model (`ReflectValueRef` / `ReflectValueBox`).
Modelled from the spec: "tagged unions mirroring RuntimeType's cases" (§3).
`enumV` carries descriptor identity and numeric value; `messageV` carries
descriptor identity and the per-field-position storage. -/
inductive ReflectValue : Type where
  | u32V : Nat → ReflectValue
  | u64V : Nat → ReflectValue
  | i32V : Int → ReflectValue
  | i64V : Int → ReflectValue
  | f32V : PbFloat → ReflectValue
  | f64V : PbFloat → ReflectValue
  | boolV : Bool → ReflectValue
  | stringV : String → ReflectValue
  | bytesV : List Nat → ReflectValue
  | enumV : Nat → Int → ReflectValue
  | messageV : Nat → List FieldValue → ReflectValue

/-- Per-field view of a message (`ReflectFieldRef`): a singular field
(absent or one value), a repeated field (ordered sequence), or a map field
(associative view).  Modelled from the spec: Accessor Protocol §4.3. -/
inductive FieldValue : Type where
  | singular : Option ReflectValue → FieldValue
  | repeated : List ReflectValue → FieldValue
  | mapV : List (MapKey × ReflectValue) → FieldValue
end

/-- Equality mode (`ReflectEqMode`): whether floating-point NaN compares
equal to NaN.  Modelled from the spec: Equality engine §4.6. -/
structure ReflectEqMode where
  nan_equal : Bool
deriving DecidableEq, Repr

/-- Mode-directed float equality: NaN equals NaN exactly when the mode says
so; finite values compare exactly.  Modelled from the spec: §4.6. -/
def floatEq (mode : ReflectEqMode) : PbFloat → PbFloat → Bool
  | .nan, .nan => mode.nan_equal
  | .fin x, .fin y => x == y
  | _, _ => false

/-- `HashMap::get` on the association-list model of the unordered map:
the value of the (unique) entry with the given key. -/
def mapGet (m : List (MapKey × ReflectValue)) (k : MapKey) : Option ReflectValue :=
  match m with
  | [] => none
  | (k', v) :: rest => if k' = k then some v else mapGet rest k

/-- `HashMap::insert` on the association-list model: overwrite the entry
with the given key if present, otherwise add a new entry. -/
def mapInsert (m : List (MapKey × ReflectValue)) (k : MapKey) (v : ReflectValue) :
    List (MapKey × ReflectValue) :=
  match m with
  | [] => [(k, v)]
  | (k', v') :: rest =>
    if k' = k then (k, v) :: rest else (k', v') :: mapInsert rest k v

mutual
/-- Structural equality of element values under a mode (`ReflectEq` for
`ReflectValueRef`).  Modelled from the spec: compare structurally, mode
controls the NaN relaxation (§4.6). -/
def valueEq (mode : ReflectEqMode) : ReflectValue → ReflectValue → Bool
  | .u32V a, .u32V b => a == b
  | .u64V a, .u64V b => a == b
  | .i32V a, .i32V b => a == b
  | .i64V a, .i64V b => a == b
  | .f32V a, .f32V b => floatEq mode a b
  | .f64V a, .f64V b => floatEq mode a b
  | .boolV a, .boolV b => a == b
  | .stringV a, .stringV b => a == b
  | .bytesV a, .bytesV b => a == b
  | .enumV d a, .enumV e b => d == e && a == b
  | .messageV d fs, .messageV e gs => d == e && fieldsEq mode fs gs
  | _, _ => false

/-- Pointwise structural equality of two messages' per-position field
storage.  Modelled from the spec: §4.6. -/
def fieldsEq (mode : ReflectEqMode) : List FieldValue → List FieldValue → Bool
  | [], [] => true
  | f :: fs, g :: gs => fieldValueEq mode f g && fieldsEq mode fs gs
  | _, _ => false

/-- Structural equality of two field views (`ReflectEq` for
`ReflectFieldRef`): singular compares presence then value, repeated
compares pointwise in order, map compares per `ReflectEq for ReflectMapRef`
(`protobuf/src/reflect/map/mod.rs`). -/
def fieldValueEq (mode : ReflectEqMode) : FieldValue → FieldValue → Bool
  | .singular none, .singular none => true
  | .singular (some v), .singular (some w) => valueEq mode v w
  | .repeated vs, .repeated ws => listValueEq mode vs ws
  | .mapV a, .mapV b => reflectMapEq mode a b
  | _, _ => false

/-- Pointwise structural equality of two repeated views.  Modelled from the
spec: repeated order is significant (§4.3). -/
def listValueEq (mode : ReflectEqMode) : List ReflectValue → List ReflectValue → Bool
  | [], [] => true
  | v :: vs, w :: ws => valueEq mode v w && listValueEq mode vs ws
  | _, _ => false

/-- `ReflectEq for ReflectMapRef` from `protobuf/src/reflect/map/mod.rs`:
equal lengths, and every entry `(k, va)` of `a` is matched by `that.get(k)`
comparing reflect-equal. -/
def reflectMapEq (mode : ReflectEqMode) (a b : List (MapKey × ReflectValue)) : Bool :=
  a.length == b.length && mapEntriesIncl mode a b

/-- The entry loop of `ReflectEq for ReflectMapRef`: for each `(k, va)` in
`a`, `b.get(k)` must exist and compare reflect-equal to `va`. -/
def mapEntriesIncl (mode : ReflectEqMode) :
    List (MapKey × ReflectValue) → List (MapKey × ReflectValue) → Bool
  | [], _ => true
  | (k, va) :: rest, b =>
    (match mapGet b k with
     | some vb => valueEq mode va vb
     | none => false) && mapEntriesIncl mode rest b
end

/-- Which backing a schema (and each of its messages) has:
`FileDescriptorImpl::Generated` or `FileDescriptorImpl::Dynamic`
(`protobuf/src/reflect/message/mod.rs`, `get_impl`). -/
inductive Backing where
  | generated : Backing
  | dynamic : Backing
deriving DecidableEq, Repr

/-- `MessageDescriptor` from `protobuf/src/reflect/message/mod.rs`: a handle
carrying identity (`file_descriptor` + `index`, collapsed here into `id`),
the backing kind of its file, and its `DescriptorProto`. -/
structure MessageDescriptor where
  id : Nat
  backing : Backing
  proto : DescriptorProto
deriving DecidableEq, Repr

/-- `FieldDescriptor`: a message descriptor plus the field's position
(`index`) within that message. -/
structure FieldDescriptor where
  message_descriptor : MessageDescriptor
  index : Nat
deriving DecidableEq, Repr

/-- Modelled from the spec: the Index's field-name → position mapping
(§3, §4.2); `MessageIndex.index_by_name` consumed by
`MessageDescriptor::get_field_by_name`. -/
def index_by_name (fields : List FieldDescriptorProto) (name : String) : Option Nat :=
  fields.findIdx? (fun f => f.name == name)

/-- Modelled from the spec: the Index's field-number → position mapping
(§3, §4.2); `MessageIndex.index_by_number` consumed by
`MessageDescriptor::get_field_by_number`. -/
def index_by_number (fields : List FieldDescriptorProto) (number : Nat) : Option Nat :=
  fields.findIdx? (fun f => f.number == number)

/-- Modelled from the spec: the Index's json-name → position mapping keyed
by both protobuf name and JSON name (§3, §4.2);
`MessageIndex.index_by_name_or_json_name` consumed by
`MessageDescriptor::get_field_by_name_or_json_name`. -/
def index_by_name_or_json_name (fields : List FieldDescriptorProto) (name : String) :
    Option Nat :=
  fields.findIdx? (fun f => f.name == name || f.json_name == name)

/-- `MessageDescriptor::is_map_entry`:
`self.get_proto().options.get_or_default().get_map_entry()`. -/
def MessageDescriptor.is_map_entry (d : MessageDescriptor) : Bool :=
  d.proto.options_map_entry

/-- `MessageDescriptor::get_field_by_name`: look the name up in the Index,
return a `FieldDescriptor` at the found position. -/
def MessageDescriptor.get_field_by_name (d : MessageDescriptor) (name : String) :
    Option FieldDescriptor :=
  (index_by_name d.proto.field name).map (fun i => ⟨d, i⟩)

/-- `MessageDescriptor::get_field_by_name_or_json_name`. -/
def MessageDescriptor.get_field_by_name_or_json_name (d : MessageDescriptor)
    (name : String) : Option FieldDescriptor :=
  (index_by_name_or_json_name d.proto.field name).map (fun i => ⟨d, i⟩)

/-- `MessageDescriptor::get_field_by_number`. -/
def MessageDescriptor.get_field_by_number (d : MessageDescriptor) (number : Nat) :
    Option FieldDescriptor :=
  (index_by_number d.proto.field number).map (fun i => ⟨d, i⟩)

/-- A message instance as seen through reflection: descriptor identity plus
one `FieldValue` slot per field position.  For the Generated backing this is
the view the per-field accessors expose of the native structure; for the
Dynamic backing it is the storage itself.  Modelled from the spec:
Message instance §3, Dynamic message §4.5. -/
structure DynamicMessage where
  descriptor : Nat
  fields : List FieldValue

/-- `field.get_reflect(m)`: fetch the view of the field at position `i`,
absent (`singular none`) when the slot is missing.  Modelled from the spec:
Accessor Protocol §4.3, Dynamic message §4.5. -/
def get_reflect (m : DynamicMessage) (i : Nat) : FieldValue :=
  m.fields.getD i (FieldValue.singular none)

/-- `set`/`mut` through the accessor protocol: replace the slot at position
`i`.  Modelled from the spec: Accessor Protocol §4.3. -/
def set_field (m : DynamicMessage) (i : Nat) (v : FieldValue) : DynamicMessage :=
  { m with fields := m.fields.set i v }

/-- `MessageDescriptor::reflect_eq` from `protobuf/src/reflect/message/mod.rs`:
assert both arguments have this descriptor (`none` embeds the panic), then
iterate the fields in declaration order, fetch both sides' views via
`get_reflect`, and compare structurally under the mode. -/
def MessageDescriptor.reflect_eq (d : MessageDescriptor) (a b : DynamicMessage)
    (mode : ReflectEqMode) : Option Bool :=
  if a.descriptor = d.id ∧ b.descriptor = d.id then
    some ((List.range d.proto.field.length).all fun i =>
      fieldValueEq mode (get_reflect a i) (get_reflect b i))
  else
    none

/-- `MessageDescriptor::eq` from `protobuf/src/reflect/message/mod.rs`:
Generated backing delegates to the factory's native equality (derived
`PartialEq`, i.e. structural equality with IEEE NaN semantics, panicking on
a downcast of a message of a different type); Dynamic backing is
`unimplemented!()` — a panic, embedded as `none`. -/
def MessageDescriptor.eq (d : MessageDescriptor) (a b : DynamicMessage) : Option Bool :=
  match d.backing with
  | .generated =>
    if a.descriptor = d.id ∧ b.descriptor = d.id then
      some (fieldsEq ⟨false⟩ a.fields b.fields)
    else
      none
  | .dynamic => none

/-- `MessageDescriptor::clone_message`: assert the message has this
descriptor (`none` embeds the panic), then deep-copy it (the identity on a
pure value). -/
def MessageDescriptor.clone_message (d : MessageDescriptor) (m : DynamicMessage) :
    Option DynamicMessage :=
  if m.descriptor = d.id then some m else none

/-- The freshly allocated instance: every slot absent.  Modelled from the
spec: "Construction (`new_instance`) allocates with all slots absent"
(§4.5); for the Generated backing the factory's `new_instance` likewise
yields the all-fields-unset native value. -/
def empty_message (d : MessageDescriptor) : DynamicMessage :=
  { descriptor := d.id, fields := d.proto.field.map (fun _ => FieldValue.singular none) }

/-- `MessageDescriptor::new_instance`: `assert_not_map_entry` (a panic,
embedded as `none`), then a new empty message for either backing. -/
def MessageDescriptor.new_instance (d : MessageDescriptor) : Option DynamicMessage :=
  if d.is_map_entry then none else some (empty_message d)

/-- `MessageDescriptor::default_instance`: `assert_not_map_entry` (a panic,
embedded as the outer `none`), then the shared default instance for the
Generated backing and `None` (the inner `none`) for the Dynamic backing. -/
def MessageDescriptor.default_instance (d : MessageDescriptor) :
    Option (Option DynamicMessage) :=
  if d.is_map_entry then
    none
  else
    match d.backing with
    | .generated => some (some (empty_message d))
    | .dynamic => some none

/-- `ReflectRepeatedMut::push` on the `Vec` backing: append at the end.
Modelled from the spec: Accessor Protocol §4.3 (the `Vec` implementation of
`ReflectRepeated` is consumed by `protobuf/src/reflect/acc/v2/repeated.rs`). -/
def repeated_push (l : List ReflectValue) (v : ReflectValue) : List ReflectValue :=
  l ++ [v]

/-- `ReflectRepeatedRef::get` on the `Vec` backing: indexed access.
Modelled from the spec: Accessor Protocol §4.3. -/
def repeated_get (l : List ReflectValue) (i : Nat) : Option ReflectValue :=
  l.get? i

/-- `ReflectRepeatedRef::len` on the `Vec` backing.  Modelled from the
spec: Accessor Protocol §4.3. -/
def repeated_len (l : List ReflectValue) : Nat :=
  l.length

/-- `RuntimeTypeBox`: the closed union naming every field element type, as
matched in `protobuf/src/json/parse.rs`.  `Enum`/`Message` carry the
descriptor identity. -/
inductive RuntimeTypeBox where
  | I32 : RuntimeTypeBox
  | I64 : RuntimeTypeBox
  | U32 : RuntimeTypeBox
  | U64 : RuntimeTypeBox
  | F32 : RuntimeTypeBox
  | F64 : RuntimeTypeBox
  | Bool : RuntimeTypeBox
  | String : RuntimeTypeBox
  | VecU8 : RuntimeTypeBox
  | Enum : Nat → RuntimeTypeBox
  | Message : Nat → RuntimeTypeBox
deriving DecidableEq, Repr

/-- The runtime type tag of a map key value. -/
def keyRuntimeType : MapKey → RuntimeTypeBox
  | .u32V _ => .U32
  | .u64V _ => .U64
  | .i32V _ => .I32
  | .i64V _ => .I64
  | .boolV _ => .Bool
  | .stringV _ => .String

/-- The runtime type tag of an element value. -/
def valueRuntimeType : ReflectValue → RuntimeTypeBox
  | .u32V _ => .U32
  | .u64V _ => .U64
  | .i32V _ => .I32
  | .i64V _ => .I64
  | .f32V _ => .F32
  | .f64V _ => .F64
  | .boolV _ => .Bool
  | .stringV _ => .String
  | .bytesV _ => .VecU8
  | .enumV e _ => .Enum e
  | .messageV d _ => .Message d

/-- The typed `HashMap<K, V>` behind a map field: its declared key and value
runtime types (`K::runtime_type_box()` / `V::runtime_type_box()`) and its
entries, from `protobuf/src/reflect/map/generated.rs`. -/
structure ReflectHashMap where
  keyType : RuntimeTypeBox
  valueType : RuntimeTypeBox
  entries : List (MapKey × ReflectValue)

/-- `ReflectMap::insert for HashMap` from
`protobuf/src/reflect/map/generated.rs` (reached through
`ReflectMapMut::insert` in `protobuf/src/reflect/map/mod.rs`): downcast the
boxed key (`expect("wrong key type")`), then the boxed value
(`expect("wrong value type")`) — both panics embedded as `none` — then
`HashMap::insert`. -/
def ReflectHashMap.insert (m : ReflectHashMap) (k : MapKey) (v : ReflectValue) :
    Option ReflectHashMap :=
  if keyRuntimeType k = m.keyType then
    if valueRuntimeType v = m.valueType then
      some { m with entries := mapInsert m.entries k v }
    else
      none
  else
    none

/-- The kind of a generated field, from `FieldKind` as matched in
`MessageGen::write_default_instance` (`protobuf-codegen/src/message.rs`). -/
inductive FieldKind where
  | singular : FieldKind
  | repeated : FieldKind
  | map : FieldKind
  | oneof : FieldKind
deriving DecidableEq, Repr

/-- Whether a field kind is `FieldKind::Map(..)`. -/
def FieldKind.is_map : FieldKind → Bool
  | .map => true
  | _ => false

/-- Which construction the code generator emits for `default_instance`. -/
inductive DefaultInstanceKind where
  | staticEager : DefaultInstanceKind
  | lazyOnce : DefaultInstanceKind
deriving DecidableEq, Repr

/-- `MessageGen::write_default_instance` from
`protobuf-codegen/src/message.rs`: if any field kind is `FieldKind::Map`,
emit the lazy once-only construction (`write_default_instance_lazy`),
otherwise the eager static construction (`write_default_instance_static`). -/
def write_default_instance (fields : List FieldKind) : DefaultInstanceKind :=
  if fields.any FieldKind.is_map then
    DefaultInstanceKind.lazyOnce
  else
    DefaultInstanceKind.staticEager

/-- The cache cell of the lazy once-only construction (`LazyV2`): either not
yet constructed or holding the constructed instance.  Modelled from the
spec: Default-instance / lazy singleton management §4.7. -/
structure LazyCell where
  value : Option DynamicMessage

/-- First access through the lazy once-only path: return the cached
instance, or construct, cache and return it.  Modelled from the spec: §4.7
(single-threaded semantics; the concurrency guarantee is out of scope of
this embedding). -/
def lazy_get (construct : Unit → DynamicMessage) (c : LazyCell) :
    DynamicMessage × LazyCell :=
  match c.value with
  | some v => (v, c)
  | none => ((construct ()), { value := some (construct ()) })

/-- A two-field message used to exercise the descriptor lookups. -/
def pointProto : DescriptorProto :=
  { name := "Point"
    field :=
      [ { name := "x", number := 1, label := .LABEL_OPTIONAL, json_name := "xJson" }
      , { name := "y", number := 2, label := .LABEL_OPTIONAL, json_name := "yJson" } ]
    nested_type_len := 0
    enum_type_len := 0
    extension_len := 0
    extension_range_len := 0
    options_map_entry := false }

/-- Descriptor handle for `pointProto`. -/
def pointDescriptor : MessageDescriptor :=
  { id := 7, backing := .generated, proto := pointProto }

/-- C1: for every field declared in a message of a well-formed schema
(pairwise distinct field numbers, names and JSON names, with no field's
name colliding with another field's JSON name), looking the field up by
number (`get_field_by_number`), by protobuf name (`get_field_by_name`) and
by JSON name (`get_field_by_name_or_json_name`) all return a
`FieldDescriptor` with the same position within the message. -/
theorem field_lookup_position_consistent (d : MessageDescriptor) (i : Nat)
    (f : FieldDescriptorProto)
    (hf : d.proto.field[i]? = some f)
    (hnum : d.proto.field.Pairwise (fun a b => a.number ≠ b.number))
    (hname : d.proto.field.Pairwise (fun a b => a.name ≠ b.name))
    (hjson : d.proto.field.Pairwise (fun a b =>
      a.json_name ≠ b.json_name ∧ a.name ≠ b.json_name ∧ a.json_name ≠ b.name)) :
    d.get_field_by_number f.number = some ⟨d, i⟩ ∧
    d.get_field_by_name f.name = some ⟨d, i⟩ ∧
    d.get_field_by_name_or_json_name f.json_name = some ⟨d, i⟩ := by
  obtain ⟨hi, hfi⟩ := List.getElem?_eq_some_iff.mp hf
  rw [List.pairwise_iff_getElem] at hnum hname hjson
  refine ⟨?_, ?_, ?_⟩
  · have : index_by_number d.proto.field f.number = some i := by
      apply List.findIdx?_eq_some_iff_getElem.mpr
      refine ⟨hi, by simp [hfi], ?_⟩
      intro j hji
      have hj : j < d.proto.field.length := Nat.lt_trans hji hi
      have := hnum j i hj hi hji
      simp only [hfi] at this
      simp [this]
    simp [MessageDescriptor.get_field_by_number, this]
  · have : index_by_name d.proto.field f.name = some i := by
      apply List.findIdx?_eq_some_iff_getElem.mpr
      refine ⟨hi, by simp [hfi], ?_⟩
      intro j hji
      have hj : j < d.proto.field.length := Nat.lt_trans hji hi
      have := hname j i hj hi hji
      simp only [hfi] at this
      simp [this]
    simp [MessageDescriptor.get_field_by_name, this]
  · have : index_by_name_or_json_name d.proto.field f.json_name = some i := by
      apply List.findIdx?_eq_some_iff_getElem.mpr
      refine ⟨hi, by simp [hfi], ?_⟩
      intro j hji
      have hj : j < d.proto.field.length := Nat.lt_trans hji hi
      have := hjson j i hj hi hji
      simp only [hfi] at this
      simp [this.1, this.2.1]
    simp [MessageDescriptor.get_field_by_name_or_json_name, this]

/-- C1 witness: on the concrete `pointDescriptor`, the three lookups for
the field `y` all yield position 1. -/
theorem field_lookup_position_consistent_witness :
    pointDescriptor.get_field_by_number 2 = some ⟨pointDescriptor, 1⟩ ∧
    pointDescriptor.get_field_by_name "y" = some ⟨pointDescriptor, 1⟩ ∧
    pointDescriptor.get_field_by_name_or_json_name "yJson" =
      some ⟨pointDescriptor, 1⟩ := by
  have h := field_lookup_position_consistent pointDescriptor 1
    { name := "y", number := 2, label := .LABEL_OPTIONAL, json_name := "yJson" }
    (by decide) (by decide) (by decide) (by decide)
  exact h

/-- A message with exactly the map-entry shape — fields `key` (#1) and
`value` (#2), no nested types, enums or extensions — but without the
`map_entry` option flag set. -/
def shapeOnlyEntry : DescriptorProto :=
  { name := "FooEntry"
    field :=
      [ { name := "key", number := 1, label := .LABEL_OPTIONAL, json_name := "key" }
      , { name := "value", number := 2, label := .LABEL_OPTIONAL, json_name := "value" } ]
    nested_type_len := 0
    enum_type_len := 0
    extension_len := 0
    extension_range_len := 0
    options_map_entry := false }

/-- A map-entry message as the code generator produces it: the same shape
with the `map_entry` option flag set. -/
def flaggedEntry : DescriptorProto :=
  { shapeOnlyEntry with options_map_entry := true }

/-- C2 counterexample: `shapeOnlyEntry` has exactly the shape the claim
describes, yet it is not recognized as a map entry — `is_map_entry` is
`false` and `map_entry` returns "not a map entry" — because recognition is
driven by the `map_entry` option flag, not by the shape. -/
theorem map_entry_shape_alone_not_recognized :
    mapEntryShapeOk shapeOnlyEntry = true ∧
    MessageDescriptor.is_map_entry ⟨3, .generated, shapeOnlyEntry⟩ = false ∧
    map_entry shapeOnlyEntry = some none := by
  refine ⟨by decide, by decide, by decide⟩

/-- C2 (amended): recognition as a map entry is by the `map_entry` option
flag.  A message whose flag is set and whose declared shape is exactly
{`key` #1, `value` #2}, with no nested types, enums or extensions (plus the
remaining asserted constraints: name ending in `Entry`, optional labels),
has `map_entry` return the key-value pair of fields; if the flag is set but
some constraint is violated, `map_entry` panics; and every message without
the flag is not recognized, regardless of shape. -/
theorem map_entry_recognition (m : MessageDescriptor) :
    (m.is_map_entry = true → mapEntryShapeOk m.proto = true →
      map_entry m.proto = some (firstTwoFields m.proto) ∧
      (firstTwoFields m.proto).isSome = true)
    ∧ (m.is_map_entry = true → mapEntryShapeOk m.proto = false →
      map_entry m.proto = none)
    ∧ (m.is_map_entry = false → map_entry m.proto = some none) := by
  refine ⟨?_, ?_, ?_⟩
  · intro hflag hshape
    have hsome : (firstTwoFields m.proto).isSome = true := by
      unfold firstTwoFields
      unfold mapEntryShapeOk at hshape
      match h : m.proto.field with
      | k :: v :: rest => simp
      | [] => rw [h] at hshape; simp at hshape
      | [k] => rw [h] at hshape; simp at hshape
    constructor
    · unfold map_entry
      rw [MessageDescriptor.is_map_entry] at hflag
      rw [hflag, hshape]
      simp only [if_true]
      obtain ⟨p, hp⟩ := Option.isSome_iff_exists.mp hsome
      rw [hp]
      rfl
    · exact hsome
  · intro hflag hshape
    unfold map_entry
    rw [MessageDescriptor.is_map_entry] at hflag
    rw [hflag, hshape]
    rfl
  · intro hflag
    unfold map_entry
    rw [MessageDescriptor.is_map_entry] at hflag
    rw [hflag]
    rfl

/-- C2 witness: the flagged map-entry message is recognized and yields its
two fields; the unflagged message of the same shape is not recognized. -/
theorem map_entry_recognition_witness :
    (map_entry flaggedEntry = some (firstTwoFields flaggedEntry) ∧
      (firstTwoFields flaggedEntry).isSome = true) ∧
    map_entry shapeOnlyEntry = some none := by
  constructor
  · exact (map_entry_recognition ⟨4, .generated, flaggedEntry⟩).1 (by decide) (by decide)
  · exact (map_entry_recognition ⟨3, .generated, shapeOnlyEntry⟩).2.2 (by decide)

/-- C3: for two messages sharing this `MessageDescriptor`, `reflect_eq`
iterates the fields in declaration order, fetches each field's value from
both sides via the accessor protocol, and returns `true` iff every field's
pair of values compares structurally equal under the mode; a message with a
different descriptor makes the operation panic. -/
theorem reflect_eq_fieldwise (d : MessageDescriptor) (a b : DynamicMessage)
    (mode : ReflectEqMode) :
    (a.descriptor = d.id → b.descriptor = d.id →
      (d.reflect_eq a b mode = some true ↔
        ∀ i, i < d.proto.field.length →
          fieldValueEq mode (get_reflect a i) (get_reflect b i) = true))
    ∧ ((a.descriptor ≠ d.id ∨ b.descriptor ≠ d.id) →
      d.reflect_eq a b mode = none) := by
  constructor
  · intro ha hb
    unfold MessageDescriptor.reflect_eq
    rw [if_pos ⟨ha, hb⟩]
    simp only [Option.some.injEq]
    rw [List.all_eq_true]
    constructor
    · intro h i hi
      exact h i (List.mem_range.mpr hi)
    · intro h i hi
      exact h i (List.mem_range.mp hi)
  · intro h
    unfold MessageDescriptor.reflect_eq
    rw [if_neg]
    intro ⟨ha, hb⟩
    rcases h with h | h
    · exact h ha
    · exact h hb

/-- A concrete instance of `pointDescriptor` with `x = 1`, `y = 2`. -/
def pointInstance : DynamicMessage :=
  { descriptor := 7
    fields :=
      [ FieldValue.singular (some (ReflectValue.u32V 1))
      , FieldValue.singular (some (ReflectValue.u32V 2)) ] }

/-- A message carrying a different descriptor identity than
`pointDescriptor`. -/
def strayInstance : DynamicMessage :=
  { descriptor := 8, fields := [] }

/-- C3 witness: on `pointDescriptor`, comparing `pointInstance` with itself
returns `some true`, and comparing against a message of a different
descriptor panics. -/
theorem reflect_eq_fieldwise_witness :
    pointDescriptor.reflect_eq pointInstance pointInstance ⟨true⟩ = some true ∧
    pointDescriptor.reflect_eq strayInstance pointInstance ⟨true⟩ = none := by
  constructor
  · apply ((reflect_eq_fieldwise pointDescriptor pointInstance pointInstance ⟨true⟩).1
      rfl rfl).mpr
    intro i hi
    have h2 : pointDescriptor.proto.field.length = 2 := rfl
    rw [h2] at hi
    interval_cases i <;>
      simp [get_reflect, pointInstance, fieldValueEq, valueEq]
  · exact (reflect_eq_fieldwise pointDescriptor strayInstance pointInstance ⟨true⟩).2
      (Or.inl (by decide))

/-- A map field populated by performing the given insertions, in order, into
an initially empty map, the way a dynamic message's map field is populated
through the accessor protocol. -/
def buildMap (ins : List (MapKey × ReflectValue)) : List (MapKey × ReflectValue) :=
  ins.foldl (fun m p => mapInsert m p.1 p.2) []

/-- A successful `mapGet` returns one of the map's entries. -/
theorem mapGet_mem {m : List (MapKey × ReflectValue)} {k : MapKey}
    {v : ReflectValue} (h : mapGet m k = some v) : (k, v) ∈ m := by
  induction m with
  | nil => simp [mapGet] at h
  | cons p rest ih =>
    obtain ⟨k', v'⟩ := p
    rw [mapGet] at h
    by_cases hk : k' = k
    · rw [if_pos hk] at h
      obtain rfl := Option.some.inj h
      subst hk
      exact List.mem_cons_self _ _
    · rw [if_neg hk] at h
      exact List.mem_cons_of_mem _ (ih h)

/-- In a map with pairwise-distinct keys, every entry is found by
`mapGet`. -/
theorem mapGet_eq_some_of_mem {m : List (MapKey × ReflectValue)} {k : MapKey}
    {v : ReflectValue} (hnd : (m.map Prod.fst).Nodup) (h : (k, v) ∈ m) :
    mapGet m k = some v := by
  induction m with
  | nil => simp at h
  | cons p rest ih =>
    obtain ⟨k', v'⟩ := p
    rw [List.map_cons, List.nodup_cons] at hnd
    rw [mapGet]
    rcases List.mem_cons.mp h with heq | hmem
    · cases heq
      rw [if_pos rfl]
    · by_cases hk : k' = k
      · subst hk
        exact absurd (List.mem_map_of_mem Prod.fst hmem) hnd.1
      · rw [if_neg hk]
        exact ih hnd.2 hmem

/-- `mapGet` misses exactly the keys the map does not contain. -/
theorem mapGet_eq_none_iff {m : List (MapKey × ReflectValue)} {k : MapKey} :
    mapGet m k = none ↔ k ∉ m.map Prod.fst := by
  induction m with
  | nil => simp [mapGet]
  | cons p rest ih =>
    obtain ⟨k', v'⟩ := p
    rw [mapGet]
    by_cases hk : k' = k
    · subst hk
      simp
    · rw [if_neg hk]
      rw [List.map_cons, List.mem_cons]
      constructor
      · intro h hmem
        rcases hmem with hh | hh
        · exact hk hh.symm
        · exact ih.mp h hh
      · intro h
        exact ih.mpr (fun hh => h (Or.inr hh))

/-- Permuting a map with pairwise-distinct keys does not change any
lookup. -/
theorem mapGet_perm {m m' : List (MapKey × ReflectValue)} (hp : m.Perm m')
    (hnd : (m.map Prod.fst).Nodup) (k : MapKey) :
    mapGet m k = mapGet m' k := by
  have hmemkeys := (hp.map Prod.fst).mem_iff (a := k)
  cases h : mapGet m k with
  | none =>
    have hk := mapGet_eq_none_iff.mp h
    exact (mapGet_eq_none_iff.mpr (fun hh => hk (hmemkeys.mpr hh))).symm
  | some v =>
    have hnd' : (m'.map Prod.fst).Nodup := ((hp.map Prod.fst).nodup_iff).mp hnd
    exact (mapGet_eq_some_of_mem hnd' (hp.mem_iff.mp (mapGet_mem h))).symm

/-- Inserting a fresh key appends the new entry at the end. -/
theorem mapInsert_of_not_mem {m : List (MapKey × ReflectValue)} {k : MapKey}
    {v : ReflectValue} (h : k ∉ m.map Prod.fst) :
    mapInsert m k v = m ++ [(k, v)] := by
  induction m with
  | nil => rfl
  | cons p rest ih =>
    obtain ⟨k', v'⟩ := p
    rw [List.map_cons, List.mem_cons] at h
    push_neg at h
    rw [mapInsert, if_neg (fun hh => h.1 hh.symm)]
    rw [ih h.2]
    rfl

/-- Folding insertions with pairwise-fresh keys over an accumulator just
appends them. -/
theorem foldl_mapInsert_eq (ins : List (MapKey × ReflectValue)) :
    ∀ acc, (((acc ++ ins).map Prod.fst).Nodup) →
      ins.foldl (fun m p => mapInsert m p.1 p.2) acc = acc ++ ins := by
  induction ins with
  | nil =>
    intro acc _
    simp
  | cons p rest ih =>
    intro acc h
    obtain ⟨k, v⟩ := p
    rw [List.foldl_cons]
    have hsplit := List.nodup_append.mp (by simpa [List.map_append] using h)
    have hknotin : k ∉ acc.map Prod.fst := by
      intro hmem
      exact hsplit.2.2 hmem (by simp)
    rw [mapInsert_of_not_mem hknotin]
    rw [ih (acc ++ [(k, v)]) (by simpa [List.append_assoc] using h)]
    simp

/-- Insertions with pairwise-distinct keys build exactly their own entry
list. -/
theorem buildMap_eq_self {ins : List (MapKey × ReflectValue)}
    (h : (ins.map Prod.fst).Nodup) : buildMap ins = ins := by
  simpa [buildMap] using foldl_mapInsert_eq ins [] (by simpa using h)

/-- The entry loop of map reflect-equality succeeds iff every entry of the
left map is matched by an equal value under the same key in the right
map. -/
theorem mapEntriesIncl_eq_true_iff (mode : ReflectEqMode)
    (a b : List (MapKey × ReflectValue)) :
    mapEntriesIncl mode a b = true ↔
      ∀ p ∈ a, ∃ vb, mapGet b p.1 = some vb ∧ valueEq mode p.2 vb = true := by
  induction a with
  | nil => simp [mapEntriesIncl]
  | cons p rest ih =>
    obtain ⟨k, va⟩ := p
    rw [mapEntriesIncl, Bool.and_eq_true, ih]
    cases hg : mapGet b k with
    | none =>
      simp only [hg]
      constructor
      · rintro ⟨hfalse, -⟩
        cases hfalse
      · intro h
        obtain ⟨vb, hvb, -⟩ := h (k, va) (List.mem_cons_self _ _)
        rw [hg] at hvb
        cases hvb
    | some vb =>
      simp only [hg]
      constructor
      · rintro ⟨hva, hrest⟩
        intro q hq
        rcases List.mem_cons.mp hq with rfl | hmem
        · exact ⟨vb, hg, hva⟩
        · exact hrest q hmem
      · intro h
        refine ⟨?_, fun q hq => h q (List.mem_cons_of_mem _ hq)⟩
        obtain ⟨vb', hvb', heq⟩ := h (k, va) (List.mem_cons_self _ _)
        rw [hg] at hvb'
        obtain rfl := Option.some.inj hvb'
        exact heq

/-- C4: map-field equality is order-independent.  `reflect_eq` on two map
views (left view with the `HashMap` invariant of pairwise-distinct keys)
returns `true` iff both maps have the same number of entries and every key
of the first map is mapped, in the second, to a reflect-equal value; in
particular, two maps populated by the same insertions (distinct keys,
self-equal values) performed in different orders compare equal. -/
theorem map_equality_order_independent (mode : ReflectEqMode) :
    (∀ a b : List (MapKey × ReflectValue), (a.map Prod.fst).Nodup →
      (reflectMapEq mode a b = true ↔
        (a.length = b.length ∧
          ∀ k va, mapGet a k = some va →
            ∃ vb, mapGet b k = some vb ∧ valueEq mode va vb = true)))
    ∧ (∀ ins ins' : List (MapKey × ReflectValue), ins.Perm ins' →
        (ins.map Prod.fst).Nodup →
        (∀ p ∈ ins, valueEq mode p.2 p.2 = true) →
        reflectMapEq mode (buildMap ins) (buildMap ins') = true) := by
  constructor
  · intro a b hnd
    rw [reflectMapEq, Bool.and_eq_true, beq_iff_eq, mapEntriesIncl_eq_true_iff]
    constructor
    · rintro ⟨hlen, hincl⟩
      refine ⟨hlen, ?_⟩
      intro k va hget
      exact hincl (k, va) (mapGet_mem hget)
    · rintro ⟨hlen, hprop⟩
      refine ⟨hlen, ?_⟩
      rintro ⟨k, va⟩ hp
      exact hprop k va (mapGet_eq_some_of_mem hnd hp)
  · intro ins ins' hperm hnd hrefl
    have hnd' : (ins'.map Prod.fst).Nodup := ((hperm.map Prod.fst).nodup_iff).mp hnd
    rw [buildMap_eq_self hnd, buildMap_eq_self hnd']
    rw [reflectMapEq, Bool.and_eq_true, beq_iff_eq, mapEntriesIncl_eq_true_iff]
    refine ⟨hperm.length_eq, ?_⟩
    rintro ⟨k, va⟩ hp
    refine ⟨va, ?_, hrefl (k, va) hp⟩
    rw [← mapGet_perm hperm hnd k]
    exact mapGet_eq_some_of_mem hnd hp

/-- C4 witness: two concrete maps populated by the same two insertions in
opposite orders compare reflect-equal. -/
theorem map_equality_order_independent_witness :
    reflectMapEq ⟨true⟩
      (buildMap [(MapKey.stringV "a", ReflectValue.u32V 1),
                 (MapKey.stringV "b", ReflectValue.u32V 2)])
      (buildMap [(MapKey.stringV "b", ReflectValue.u32V 2),
                 (MapKey.stringV "a", ReflectValue.u32V 1)]) = true := by
  apply (map_equality_order_independent ⟨true⟩).2
  · exact List.Perm.swap _ _ _
  · decide
  · rintro p hp
    rcases List.mem_cons.mp hp with rfl | hp
    · simp [valueEq]
    · rcases List.mem_cons.mp hp with rfl | hp
      · simp [valueEq]
      · simp at hp

/-- An inserted entry is read back by a lookup under the same key. -/
theorem mapGet_mapInsert_self (m : List (MapKey × ReflectValue)) (k : MapKey)
    (v : ReflectValue) : mapGet (mapInsert m k v) k = some v := by
  induction m with
  | nil => simp [mapInsert, mapGet]
  | cons p rest ih =>
    obtain ⟨k', v'⟩ := p
    rw [mapInsert]
    by_cases hk : k' = k
    · rw [if_pos hk, mapGet, if_pos rfl]
    · rw [if_neg hk, mapGet, if_neg hk]
      exact ih

/-- C5: accessor round-trip for every value and either backing.  Writing a
field value through the accessor protocol and reading it back yields the
same value; on a freshly created instance's repeated field, `push v1` then
`push v2` gives `len = 2`, `get 0 = v1` and `get 1 = v2`; and a map insert
is read back by a get under the same key. -/
theorem accessor_round_trip :
    (∀ (m : DynamicMessage) (i : Nat) (v : FieldValue), i < m.fields.length →
      get_reflect (set_field m i v) i = v)
    ∧ (∀ v1 v2 : ReflectValue,
      repeated_len (repeated_push (repeated_push [] v1) v2) = 2 ∧
      repeated_get (repeated_push (repeated_push [] v1) v2) 0 = some v1 ∧
      repeated_get (repeated_push (repeated_push [] v1) v2) 1 = some v2)
    ∧ (∀ (m : List (MapKey × ReflectValue)) (k : MapKey) (v : ReflectValue),
      mapGet (mapInsert m k v) k = some v) := by
  refine ⟨?_, ?_, ?_⟩
  · intro m i v hi
    unfold get_reflect set_field
    simp only [List.getD_eq_getElem?_getD]
    rw [List.getElem?_set_self (by simpa using hi)]
    rfl
  · intro v1 v2
    refine ⟨rfl, rfl, rfl⟩
  · intro m k v
    exact mapGet_mapInsert_self m k v

/-- C5 witness: round-trip at concrete inputs — a singular set/get on
`pointInstance`, the two pushes on a fresh repeated field, and a map
insert/get. -/
theorem accessor_round_trip_witness :
    get_reflect
        (set_field pointInstance 0 (FieldValue.singular (some (ReflectValue.u32V 9)))) 0 =
      FieldValue.singular (some (ReflectValue.u32V 9)) ∧
    (repeated_len (repeated_push (repeated_push [] (ReflectValue.u32V 19))
        (ReflectValue.u32V 17)) = 2 ∧
      repeated_get (repeated_push (repeated_push [] (ReflectValue.u32V 19))
        (ReflectValue.u32V 17)) 0 = some (ReflectValue.u32V 19) ∧
      repeated_get (repeated_push (repeated_push [] (ReflectValue.u32V 19))
        (ReflectValue.u32V 17)) 1 = some (ReflectValue.u32V 17)) ∧
    mapGet (mapInsert [] (MapKey.u32V 3) (ReflectValue.boolV true)) (MapKey.u32V 3) =
      some (ReflectValue.boolV true) := by
  refine ⟨?_, ?_, ?_⟩
  · exact accessor_round_trip.1 pointInstance 0 _ (by simp [pointInstance])
  · exact accessor_round_trip.2.1 (ReflectValue.u32V 19) (ReflectValue.u32V 17)
  · exact accessor_round_trip.2.2 [] (MapKey.u32V 3) (ReflectValue.boolV true)

/-- A dynamic-backed descriptor of the same shape as `pointDescriptor`. -/
def dynamicPointDescriptor : MessageDescriptor :=
  { id := 9, backing := .dynamic, proto := pointProto }

/-- An instance of `dynamicPointDescriptor`. -/
def dynamicPointInstance : DynamicMessage :=
  { descriptor := 9
    fields :=
      [ FieldValue.singular (some (ReflectValue.u32V 1))
      , FieldValue.singular (some (ReflectValue.u32V 2)) ] }

/-- C6 counterexample: `MessageDescriptor::eq` on a dynamic-backed
descriptor does not complete — it hits `unimplemented!()` and panics — even
on two messages of exactly that descriptor. -/
theorem descriptor_eq_dynamic_panics :
    dynamicPointDescriptor.eq dynamicPointInstance dynamicPointInstance = none := by
  rfl

/-- C6 (amended): `clone_message` completes for both backings, and
`MessageDescriptor::eq` completes and returns a result for the generated
backing; for the dynamic backing `eq` panics (`unimplemented!()`) —
cross-backing structural equality is provided by `reflect_eq` instead. -/
theorem eq_clone_dispatch (d : MessageDescriptor) (a b m : DynamicMessage) :
    (d.backing = .generated → a.descriptor = d.id → b.descriptor = d.id →
      (d.eq a b).isSome = true)
    ∧ (d.backing = .dynamic → d.eq a b = none)
    ∧ (m.descriptor = d.id → d.clone_message m = some m) := by
  refine ⟨?_, ?_, ?_⟩
  · intro hback ha hb
    unfold MessageDescriptor.eq
    rw [hback]
    rw [if_pos ⟨ha, hb⟩]
    rfl
  · intro hback
    unfold MessageDescriptor.eq
    rw [hback]
  · intro hm
    unfold MessageDescriptor.clone_message
    rw [if_pos hm]

/-- C6 witness: generated-backing `eq` completes on `pointInstance`,
dynamic-backing `eq` panics, and `clone_message` completes for both
backings. -/
theorem eq_clone_dispatch_witness :
    (pointDescriptor.eq pointInstance pointInstance).isSome = true ∧
    dynamicPointDescriptor.eq dynamicPointInstance dynamicPointInstance = none ∧
    pointDescriptor.clone_message pointInstance = some pointInstance ∧
    dynamicPointDescriptor.clone_message dynamicPointInstance =
      some dynamicPointInstance := by
  refine ⟨?_, ?_, ?_, ?_⟩
  · exact (eq_clone_dispatch pointDescriptor pointInstance pointInstance
      pointInstance).1 rfl rfl rfl
  · exact (eq_clone_dispatch dynamicPointDescriptor dynamicPointInstance
      dynamicPointInstance dynamicPointInstance).2.1 rfl
  · exact (eq_clone_dispatch pointDescriptor pointInstance pointInstance
      pointInstance).2.2 rfl
  · exact (eq_clone_dispatch dynamicPointDescriptor dynamicPointInstance
      dynamicPointInstance dynamicPointInstance).2.2 rfl

/-- C7: the code generator emits the eager (static) `default_instance`
construction iff the message has no map field, and the deferred (lazy,
once-only) construction iff it has at least one; a lazy first access on an
empty cell observes exactly the constructed value, so (single-threaded) the
two paths yield the same observable instance. -/
theorem default_instance_emission (fields : List FieldKind) :
    (write_default_instance fields = DefaultInstanceKind.staticEager ↔
      ∀ f ∈ fields, f.is_map = false)
    ∧ (write_default_instance fields = DefaultInstanceKind.lazyOnce ↔
      ∃ f ∈ fields, f.is_map = true)
    ∧ (∀ construct : Unit → DynamicMessage,
      (lazy_get construct ⟨none⟩).1 = construct ()) := by
  refine ⟨?_, ?_, ?_⟩
  · unfold write_default_instance
    by_cases h : fields.any FieldKind.is_map
    · rw [if_pos h]
      simp only [List.any_eq_true] at h
      obtain ⟨f, hf, hmap⟩ := h
      constructor
      · intro hcontra
        cases hcontra
      · intro hall
        rw [hall f hf] at hmap
        cases hmap
    · rw [if_neg h]
      simp only [List.any_eq_true] at h
      push_neg at h
      constructor
      · intro _ f hf
        exact Bool.eq_false_iff.mpr (h f hf)
      · intro _
        rfl
  · unfold write_default_instance
    by_cases h : fields.any FieldKind.is_map
    · rw [if_pos h]
      simp only [List.any_eq_true] at h
      exact ⟨fun _ => h, fun _ => rfl⟩
    · rw [if_neg h]
      simp only [List.any_eq_true] at h
      constructor
      · intro hcontra
        cases hcontra
      · intro hex
        exact absurd hex h
  · intro construct
    rfl

/-- C7 witness: a message with a map field gets the lazy construction, one
without gets the eager construction, and the lazy first access yields the
constructed default value. -/
theorem default_instance_emission_witness :
    write_default_instance [FieldKind.singular, FieldKind.map] =
      DefaultInstanceKind.lazyOnce ∧
    write_default_instance [FieldKind.singular, FieldKind.repeated] =
      DefaultInstanceKind.staticEager ∧
    (lazy_get (fun _ => empty_message pointDescriptor) ⟨none⟩).1 =
      empty_message pointDescriptor := by
  refine ⟨?_, ?_, ?_⟩
  · exact (default_instance_emission [FieldKind.singular, FieldKind.map]).2.1.mpr
      ⟨FieldKind.map, by simp, rfl⟩
  · exact (default_instance_emission [FieldKind.singular, FieldKind.repeated]).1.mpr
      (by intro f hf; fin_cases hf <;> rfl)
  · exact (default_instance_emission []).2.2 (fun _ => empty_message pointDescriptor)

/-- C8: supplying a key or value whose runtime type disagrees with the
map's declared key/value type through the accessor protocol's map insert is
a panic (the `expect("wrong key type")` / `expect("wrong value type")`
downcasts), never a silent acceptance or a recoverable error; when both
types match, the panic branch is unreachable, the insert succeeds, and the
inserted value is read back under its key. -/
theorem map_insert_type_mismatch_panics (m : ReflectHashMap) (k : MapKey)
    (v : ReflectValue) :
    ((keyRuntimeType k ≠ m.keyType ∨ valueRuntimeType v ≠ m.valueType) →
      m.insert k v = none)
    ∧ (keyRuntimeType k = m.keyType → valueRuntimeType v = m.valueType →
      m.insert k v = some ⟨m.keyType, m.valueType, mapInsert m.entries k v⟩ ∧
      mapGet (mapInsert m.entries k v) k = some v) := by
  constructor
  · intro h
    unfold ReflectHashMap.insert
    rcases h with h | h
    · rw [if_neg h]
    · by_cases hk : keyRuntimeType k = m.keyType
      · rw [if_pos hk, if_neg h]
      · rw [if_neg hk]
  · intro hk hv
    constructor
    · unfold ReflectHashMap.insert
      rw [if_pos hk, if_pos hv]
    · exact mapGet_mapInsert_self m.entries k v

/-- A concrete `map<u32, string>` field backing. -/
def u32StringMap : ReflectHashMap :=
  { keyType := .U32, valueType := .String, entries := [] }

/-- C8 witness: inserting a string key into the `map<u32, string>` backing
panics; inserting a matching key/value pair succeeds and is read back. -/
theorem map_insert_type_mismatch_panics_witness :
    u32StringMap.insert (MapKey.stringV "oops") (ReflectValue.stringV "v") = none ∧
    u32StringMap.insert (MapKey.u32V 4) (ReflectValue.stringV "v") =
      some ⟨.U32, .String, [(MapKey.u32V 4, ReflectValue.stringV "v")]⟩ ∧
    mapGet (mapInsert u32StringMap.entries (MapKey.u32V 4) (ReflectValue.stringV "v"))
      (MapKey.u32V 4) = some (ReflectValue.stringV "v") := by
  refine ⟨?_, ?_, ?_⟩
  · exact (map_insert_type_mismatch_panics u32StringMap (MapKey.stringV "oops")
      (ReflectValue.stringV "v")).1 (Or.inl (by decide))
  · exact ((map_insert_type_mismatch_panics u32StringMap (MapKey.u32V 4)
      (ReflectValue.stringV "v")).2 rfl rfl).1
  · exact ((map_insert_type_mismatch_panics u32StringMap (MapKey.u32V 4)
      (ReflectValue.stringV "v")).2 rfl rfl).2

/-- The map-entry message of `flaggedEntry` wrapped in a descriptor
handle. -/
def flaggedEntryDescriptor : MessageDescriptor :=
  { id := 11, backing := .generated, proto := flaggedEntry }

/-- C10: on a map-entry descriptor, both `new_instance` and
`default_instance` panic through `assert_not_map_entry`; on a non-map-entry
descriptor the assertion branch is unreachable and both operations
complete (with `default_instance` returning the shared instance for the
generated backing and `None` for the dynamic backing). -/
theorem instance_creation_map_entry_guard (d : MessageDescriptor) :
    (d.is_map_entry = true → d.new_instance = none ∧ d.default_instance = none)
    ∧ (d.is_map_entry = false →
      d.new_instance = some (empty_message d) ∧
      (d.backing = .generated → d.default_instance = some (some (empty_message d))) ∧
      (d.backing = .dynamic → d.default_instance = some none)) := by
  constructor
  · intro h
    unfold MessageDescriptor.new_instance MessageDescriptor.default_instance
    rw [h]
    exact ⟨rfl, rfl⟩
  · intro h
    unfold MessageDescriptor.new_instance MessageDescriptor.default_instance
    rw [h]
    refine ⟨rfl, ?_, ?_⟩
    · intro hb
      rw [hb]
      rfl
    · intro hb
      rw [hb]
      rfl

/-- C10 witness: the flagged map-entry descriptor panics on both
operations; `pointDescriptor` (generated) and `dynamicPointDescriptor`
(dynamic) complete. -/
theorem instance_creation_map_entry_guard_witness :
    (flaggedEntryDescriptor.new_instance = none ∧
      flaggedEntryDescriptor.default_instance = none) ∧
    pointDescriptor.new_instance = some (empty_message pointDescriptor) ∧
    pointDescriptor.default_instance = some (some (empty_message pointDescriptor)) ∧
    dynamicPointDescriptor.new_instance =
      some (empty_message dynamicPointDescriptor) ∧
    dynamicPointDescriptor.default_instance = some none := by
  refine ⟨?_, ?_, ?_, ?_, ?_⟩
  · exact (instance_creation_map_entry_guard flaggedEntryDescriptor).1 rfl
  · exact ((instance_creation_map_entry_guard pointDescriptor).2 rfl).1
  · exact ((instance_creation_map_entry_guard pointDescriptor).2 rfl).2.1 rfl
  · exact ((instance_creation_map_entry_guard dynamicPointDescriptor).2 rfl).1
  · exact ((instance_creation_map_entry_guard dynamicPointDescriptor).2 rfl).2.2 rfl
